import Mathlib

/-!
Shallow embedding of the whack-a-mole game logic from src/index.tsx.

The React component state is modelled as a record `GameState`; each timer or
event callback of the source becomes a pure state-transformer:

* `startGame`      — the startGame click handler (lines 217–223);
* `whackItem`      — the whackItem click handler (lines 225–244), for the
                     in-range indices 0..8 emitted by the rendered grid;
* `clockTick`      — the 1s countdown body `setTimeLeft(prev => prev - 1)`
                     (lines 165–167);
* `endGame`        — the expiry branch of the game-timer effect together with
                     the popping-effect cleanup that runs when isActive flips
                     to false (lines 155–162 and 209–213): both cancel the
                     pending hide timeouts, so the net effect resets them;
* `popTick`        — the body of the spawn interval (lines 176–206), with the
                     two Math.random() draws injected as rational arguments
                     r1, r2 ∈ [0,1);
* `hideCallback` / `fireHide` — the scheduled auto-hide closure
                     (lines 194–202); the captured pair (randomIndex, content)
                     is recorded as a `Timer` value in `moleTimeouts`.

Cell indices produced by a spawn are members of `emptyHolesIndexes`, hence
nonnegative, so `Timer.idx` stores the index as a `Nat`.

`LStep` is the labelled event-loop step relation: each constructor is one
callback invocation, guarded by the condition under which the source can run
it (the start button is disabled while active; the countdown and spawn
intervals exist only while active; a hide timeout must still be pending).
`Reachable` closes it reflexively-transitively from the initial component
state.

`JSGrid`/`whackItemJS` re-model the whackItem handler over JavaScript array
semantics (property map plus a length slot), which is needed to state what
happens at out-of-range indices, where a JS write extends the array.
-/

namespace WhackAMole

/-- Content of one grid hole, the HoleContent union type of the source. -/
inductive HoleContent
  | empty
  | mole
  | bomb
deriving DecidableEq, Repr

/-- Recorded end cause: the gameOverReason state, whose null is `Option.none`. -/
inductive GameOverReason
  | time
  | bomb
deriving DecidableEq, Repr

/-- One pending auto-hide timeout: the values the hide closure captured. -/
structure Timer where
  idx : Nat
  content : HoleContent
deriving DecidableEq, Repr

/-- The component state: score, timeLeft, isActive, holeContents,
gameOverReason, and the moleTimeouts ref holding pending hide timeouts. -/
structure GameState where
  score : Int
  timeLeft : Int
  isActive : Bool
  holeContents : List HoleContent
  gameOverReason : Option GameOverReason
  moleTimeouts : List Timer
deriving DecidableEq, Repr

/-- GAME_DURATION constant (60 seconds). -/
def GAME_DURATION : Int := 60

/-- GRID_SIZE constant (9 cells). -/
def GRID_SIZE : Nat := 9

/-- BOMB_CHANCE constant (0.2). -/
def BOMB_CHANCE : ℚ := 1 / 5

/-- Initial component state from the useState initialisers. -/
def initState : GameState :=
  { score := 0
    timeLeft := GAME_DURATION
    isActive := false
    holeContents := List.replicate GRID_SIZE HoleContent.empty
    gameOverReason := none
    moleTimeouts := [] }

/-- The startGame handler: reset score, time, reason and grid, set active.
It does not touch the moleTimeouts ref. -/
def startGame (s : GameState) : GameState :=
  { s with
    score := 0
    timeLeft := GAME_DURATION
    isActive := true
    gameOverReason := none
    holeContents := List.replicate GRID_SIZE HoleContent.empty }

/-- The whackItem handler at a list index: return unchanged when the cell
reads as empty or the game is inactive; otherwise adjust the score by the
content kind and set the cell to empty. A `List.HoleContent` lookup out of
range yields `none`, matching the undefined lookup of the source, and the
guard compares it against `some empty` exactly as the strict equality does;
`whackItemJS` below refines the write path for out-of-range indices. -/
def whackItem (index : Nat) (s : GameState) : GameState :=
  if s.holeContents[index]? = some HoleContent.empty ∨ s.isActive = false then s
  else
    let newScore : Int :=
      match s.holeContents[index]? with
      | some HoleContent.mole => s.score + 10
      | some HoleContent.bomb => s.score - 10
      | _ => s.score
    { s with
      score := newScore
      holeContents := s.holeContents.set index HoleContent.empty }

/-- A sequence of whackItem invocations, first index first. -/
def whackSeq (l : List Nat) (s : GameState) : GameState :=
  l.foldl (fun t i => whackItem i t) s

/-- The map-then-filter computation of the indices of empty holes
(lines 178–180): map each cell to its index if empty, else to -1, then
drop the -1 entries. -/
def emptyHolesIndexes (l : List HoleContent) : List Int :=
  (l.enum.map fun p => if p.2 = HoleContent.empty then (p.1 : Int) else -1).filter
    fun i => i != -1

/-- One second of the countdown: `setTimeLeft(prev => prev - 1)`. -/
def clockTick (s : GameState) : GameState :=
  { s with timeLeft := s.timeLeft - 1 }

/-- The expiry branch of the game-timer effect plus the popping-effect
cleanup it triggers: deactivate, cancel every pending hide timeout, clear the
grid, and record the time cause only when no cause is recorded yet. -/
def endGame (s : GameState) : GameState :=
  { s with
    isActive := false
    moleTimeouts := []
    holeContents := List.replicate GRID_SIZE HoleContent.empty
    gameOverReason :=
      if s.gameOverReason = none then some GameOverReason.time
      else s.gameOverReason }

/-- The auto-hide closure body on the grid: clear the captured cell only when
it still holds the captured content. -/
def hideCallback (idx : Nat) (content : HoleContent) (l : List HoleContent) :
    List HoleContent :=
  if l[idx]? = some content then l.set idx HoleContent.empty else l

/-- Firing a pending hide timeout: run its closure on the grid; a timeout
fires at most once, so it leaves the pending collection. -/
def fireHide (t : Timer) (s : GameState) : GameState :=
  { s with
    holeContents := hideCallback t.idx t.content s.holeContents
    moleTimeouts := s.moleTimeouts.erase t }

/-- The body of the spawn interval: compute the empty indices; when none,
return the state unchanged; otherwise pick the index at position
floor(r1 · n) of that list, assign a bomb when r2 < BOMB_CHANCE and a mole
otherwise, and record the scheduled hide timeout. -/
def popTick (r1 r2 : ℚ) (s : GameState) : GameState :=
  let emptyIdx := emptyHolesIndexes s.holeContents
  if emptyIdx.length = 0 then s
  else
    let randomIndex : Int :=
      emptyIdx.getD (Int.floor (r1 * (emptyIdx.length : ℚ))).toNat (-1)
    let content : HoleContent :=
      if r2 < BOMB_CHANCE then HoleContent.bomb else HoleContent.mole
    { s with
      holeContents := s.holeContents.set randomIndex.toNat content
      moleTimeouts := s.moleTimeouts ++ [⟨randomIndex.toNat, content⟩] }

/-- Labels for the event-loop callbacks. -/
inductive Act
  | start
  | whack (i : Nat)
  | tick
  | expire
  | pop (r1 r2 : ℚ)
  | hide (t : Timer)

/-- Labelled step relation of the event loop: one callback invocation under
the condition that lets the source schedule it. The start button is disabled
while active; clicks arrive only from the 9 rendered cells; the countdown
runs while active with time left; expiry fires while active at time ≤ 0; the
spawn interval exists only while active; a hide timeout must be pending. -/
inductive LStep : GameState → Act → GameState → Prop
  | start {s : GameState} (ha : s.isActive = false) :
      LStep s Act.start (startGame s)
  | whack {s : GameState} (i : Nat) (hi : i < GRID_SIZE) :
      LStep s (Act.whack i) (whackItem i s)
  | tick {s : GameState} (ha : s.isActive = true) (ht : 0 < s.timeLeft) :
      LStep s Act.tick (clockTick s)
  | expire {s : GameState} (ha : s.isActive = true) (ht : s.timeLeft ≤ 0) :
      LStep s Act.expire (endGame s)
  | pop {s : GameState} (r1 r2 : ℚ) (h1 : 0 ≤ r1) (h2 : r1 < 1) (h3 : 0 ≤ r2)
      (h4 : r2 < 1) (ha : s.isActive = true) :
      LStep s (Act.pop r1 r2) (popTick r1 r2 s)
  | hide {s : GameState} (t : Timer) (ht : t ∈ s.moleTimeouts) :
      LStep s (Act.hide t) (fireHide t s)

/-- Unlabelled step. -/
def Step (s t : GameState) : Prop := ∃ a, LStep s a t

/-- States reachable from the initial component state. -/
def Reachable (s : GameState) : Prop := Relation.ReflTransGen Step initState s

/-- A JavaScript array of hole contents: `val` is the property map over
integer keys (`none` is the undefined result of reading an absent property)
and `len` the length slot. -/
structure JSGrid where
  len : Nat
  val : Int → Option HoleContent

/-- A JavaScript array element write: store the value at the key; a write at
a nonnegative key at or past the length extends the length to key + 1. -/
def JSGrid.setProp (g : JSGrid) (i : Int) (c : HoleContent) : JSGrid :=
  { len := if 0 ≤ i ∧ (g.len : Int) ≤ i then i.toNat + 1 else g.len
    val := fun j => if j = i then some c else g.val j }

/-- The whackItem handler over JavaScript array semantics, for any integer
index: the guard compares the property read against the empty tag, so an
undefined read passes it, and the write path stores the empty tag at the
index. Returns the updated grid and score. -/
def whackItemJS (index : Int) (isActive : Bool) (g : JSGrid) (score : Int) :
    JSGrid × Int :=
  if g.val index = some HoleContent.empty ∨ isActive = false then (g, score)
  else
    let newScore : Int :=
      match g.val index with
      | some HoleContent.mole => score + 10
      | some HoleContent.bomb => score - 10
      | _ => score
    (g.setProp index HoleContent.empty, newScore)

/-- Allowed one-step change of a single cell: unchanged, spawned from empty
to mole or bomb, or cleared from mole or bomb back to empty. -/
def cellStepOK (a b : HoleContent) : Prop :=
  a = b ∨
  (a = HoleContent.empty ∧ (b = HoleContent.mole ∨ b = HoleContent.bomb)) ∨
  ((a = HoleContent.mole ∨ a = HoleContent.bomb) ∧ b = HoleContent.empty)

/-! Supporting lemmas. -/

/-- An unchanged cell is an allowed step. -/
lemma cellStepOK_refl (a : HoleContent) : cellStepOK a a := Or.inl rfl

/-- A cell ending empty is always an allowed step. -/
lemma cellStepOK_to_empty (a : HoleContent) :
    cellStepOK a HoleContent.empty := by
  cases a <;> simp [cellStepOK]

/-- A cell of an all-empty grid reads empty. -/
lemma getD_replicate_empty (n i : Nat) :
    (List.replicate n HoleContent.empty).getD i HoleContent.empty =
      HoleContent.empty := by
  rw [List.getD_eq_getElem?_getD, List.getElem?_replicate]
  split <;> rfl

/-- Clearing any one position is an allowed step at every cell. -/
lemma cellStepOK_set_empty (l : List HoleContent) (j i : Nat) :
    cellStepOK (l.getD i HoleContent.empty)
      ((l.set j HoleContent.empty).getD i HoleContent.empty) := by
  by_cases hij : i = j
  · subst hij
    by_cases hlen : i < l.length
    · rw [List.getD_eq_getElem?_getD (l.set i HoleContent.empty),
        List.getElem?_set_self hlen]
      exact cellStepOK_to_empty _
    · rw [List.set_eq_of_length_le (le_of_not_lt hlen)]
      exact cellStepOK_refl _
  · rw [List.getD_eq_getElem?_getD (l.set j HoleContent.empty),
      List.getElem?_set_ne (fun e => hij e.symm),
      ← List.getD_eq_getElem?_getD]
    exact cellStepOK_refl _

/-- Unfolding of popTick on a grid with at least one empty hole. -/
lemma popTick_eq (s : GameState) (r1 r2 : ℚ)
    (h : emptyHolesIndexes s.holeContents ≠ []) :
    popTick r1 r2 s =
      { s with
        holeContents := s.holeContents.set
          ((emptyHolesIndexes s.holeContents).getD
            (Int.floor (r1 * ((emptyHolesIndexes s.holeContents).length : ℚ))).toNat
            (-1)).toNat
          (if r2 < BOMB_CHANCE then HoleContent.bomb else HoleContent.mole)
        moleTimeouts := s.moleTimeouts ++
          [⟨((emptyHolesIndexes s.holeContents).getD
              (Int.floor (r1 * ((emptyHolesIndexes s.holeContents).length : ℚ))).toNat
              (-1)).toNat,
            if r2 < BOMB_CHANCE then HoleContent.bomb else HoleContent.mole⟩] } := by
  have hlen : ¬ (emptyHolesIndexes s.holeContents).length = 0 := by
    simpa [List.length_eq_zero] using h
  simp only [popTick]
  rw [if_neg hlen]

/-- Unfolding of popTick on a full grid. -/
lemma popTick_full (s : GameState) (r1 r2 : ℚ)
    (h : emptyHolesIndexes s.holeContents = []) :
    popTick r1 r2 s = s := by
  simp only [popTick]
  rw [if_pos]
  simp [h]

/-- Any member of emptyHolesIndexes is a nonnegative index of an empty cell. -/
lemma mem_emptyHolesIndexes {l : List HoleContent} {x : Int}
    (h : x ∈ emptyHolesIndexes l) :
    0 ≤ x ∧ l[x.toNat]? = some HoleContent.empty := by
  unfold emptyHolesIndexes at h
  rw [List.mem_filter] at h
  obtain ⟨hmem, hbne⟩ := h
  rw [List.mem_map] at hmem
  obtain ⟨p, hp, hfp⟩ := hmem
  by_cases hc : p.2 = HoleContent.empty
  · rw [if_pos hc] at hfp
    have henum : (p.1, p.2) ∈ l.enum := hp
    rw [List.mk_mem_enum_iff_getElem?] at henum
    refine ⟨hfp ▸ Int.ofNat_nonneg p.1, ?_⟩
    have hx : x.toNat = p.1 := by omega
    rw [hx, henum, hc]
  · rw [if_neg hc] at hfp
    rw [← hfp] at hbne
    simp at hbne

/-- getD with an in-range position returns a member of the list. -/
lemma getD_mem_of_lt {l : List Int} {k : Nat} (h : k < l.length) :
    l.getD k (-1) ∈ l := by
  rw [List.getD_eq_getElem?_getD, List.getElem?_eq_getElem h]
  exact List.getElem_mem h

/-- The scaled floor of a draw in [0,1) is an in-range position. -/
lemma floor_mul_toNat_lt (r : ℚ) (n : ℕ) (h0 : 0 ≤ r) (h1 : r < 1)
    (hn : n ≠ 0) : (Int.floor (r * (n : ℚ))).toNat < n := by
  have hnq : (0 : ℚ) < (n : ℚ) := by
    exact_mod_cast Nat.pos_of_ne_zero hn
  have h2 : r * (n : ℚ) < ((n : ℤ) : ℚ) := by
    push_cast
    nlinarith
  have h3 : Int.floor (r * (n : ℚ)) < (n : ℤ) := Int.floor_lt.mpr h2
  have h4 : (0 : ℤ) ≤ Int.floor (r * (n : ℚ)) :=
    Int.floor_nonneg.mpr (by positivity)
  omega

/-- whackItem never changes isActive. -/
lemma whackItem_isActive (i : Nat) (s : GameState) :
    (whackItem i s).isActive = s.isActive := by
  unfold whackItem
  split <;> rfl

/-- whackItem never changes timeLeft. -/
lemma whackItem_timeLeft (i : Nat) (s : GameState) :
    (whackItem i s).timeLeft = s.timeLeft := by
  unfold whackItem
  split <;> rfl

/-- whackItem never changes the recorded end cause. -/
lemma whackItem_gameOverReason (i : Nat) (s : GameState) :
    (whackItem i s).gameOverReason = s.gameOverReason := by
  unfold whackItem
  split <;> rfl

/-- whackItem never changes the pending timeouts. -/
lemma whackItem_moleTimeouts (i : Nat) (s : GameState) :
    (whackItem i s).moleTimeouts = s.moleTimeouts := by
  unfold whackItem
  split <;> rfl

/-- whackItem leaves every other cell unchanged. -/
lemma whackItem_cell_ne (i j : Nat) (s : GameState) (hj : j ≠ i) :
    (whackItem i s).holeContents[j]? = s.holeContents[j]? := by
  unfold whackItem
  split
  · rfl
  · exact List.getElem?_set_ne (Ne.symm hj)

/-- The grid after a spawn on a non-full grid: the cell at the drawn
position of the empty-index list receives the drawn content. -/
lemma popTick_holeContents (s : GameState) (r1 r2 : ℚ)
    (h : emptyHolesIndexes s.holeContents ≠ []) :
    (popTick r1 r2 s).holeContents =
      s.holeContents.set
        ((emptyHolesIndexes s.holeContents).getD
          (Int.floor (r1 * ((emptyHolesIndexes s.holeContents).length : ℚ))).toNat
          (-1)).toNat
        (if r2 < BOMB_CHANCE then HoleContent.bomb else HoleContent.mole) := by
  rw [popTick_eq s r1 r2 h]

/-- The pending timeouts after a spawn on a non-full grid. -/
lemma popTick_moleTimeouts (s : GameState) (r1 r2 : ℚ)
    (h : emptyHolesIndexes s.holeContents ≠ []) :
    (popTick r1 r2 s).moleTimeouts =
      s.moleTimeouts ++
        [⟨((emptyHolesIndexes s.holeContents).getD
            (Int.floor (r1 * ((emptyHolesIndexes s.holeContents).length : ℚ))).toNat
            (-1)).toNat,
          if r2 < BOMB_CHANCE then HoleContent.bomb else HoleContent.mole⟩] := by
  rw [popTick_eq s r1 r2 h]

/-- popTick never changes isActive. -/
lemma popTick_isActive (r1 r2 : ℚ) (s : GameState) :
    (popTick r1 r2 s).isActive = s.isActive := by
  simp only [popTick]
  split <;> rfl

/-- popTick never changes the recorded end cause. -/
lemma popTick_gameOverReason (r1 r2 : ℚ) (s : GameState) :
    (popTick r1 r2 s).gameOverReason = s.gameOverReason := by
  simp only [popTick]
  split <;> rfl

/-- The grid after a whack that passes the guard. -/
lemma whackItem_holeContents_hit (i : Nat) (s : GameState)
    (hg : ¬ (s.holeContents[i]? = some HoleContent.empty ∨
      s.isActive = false)) :
    (whackItem i s).holeContents = s.holeContents.set i HoleContent.empty := by
  unfold whackItem
  rw [if_neg hg]

/-- The drawn position is a member of the empty-index list. -/
lemma popTick_chosen_mem (s : GameState) (r1 : ℚ) (h1 : 0 ≤ r1)
    (h2 : r1 < 1) (hne : emptyHolesIndexes s.holeContents ≠ []) :
    (emptyHolesIndexes s.holeContents).getD
        (Int.floor (r1 * ((emptyHolesIndexes s.holeContents).length : ℚ))).toNat
        (-1) ∈
      emptyHolesIndexes s.holeContents := by
  apply getD_mem_of_lt
  apply floor_mul_toNat_lt r1 _ h1 h2
  simpa [List.length_eq_zero] using hne

/-- A whack sequence never changes isActive. -/
lemma whackSeq_isActive (l : List Nat) (s : GameState) :
    (whackSeq l s).isActive = s.isActive := by
  induction l generalizing s with
  | nil => rfl
  | cons i l ih =>
      simp only [whackSeq, List.foldl_cons]
      rw [show List.foldl (fun t i => whackItem i t) (whackItem i s) l =
        whackSeq l (whackItem i s) from rfl]
      rw [ih, whackItem_isActive]

/-- A whack sequence never changes the recorded end cause. -/
lemma whackSeq_gameOverReason (l : List Nat) (s : GameState) :
    (whackSeq l s).gameOverReason = s.gameOverReason := by
  induction l generalizing s with
  | nil => rfl
  | cons i l ih =>
      simp only [whackSeq, List.foldl_cons]
      rw [show List.foldl (fun t i => whackItem i t) (whackItem i s) l =
        whackSeq l (whackItem i s) from rfl]
      rw [ih, whackItem_gameOverReason]

/-- In every reachable state the recorded end cause is nothing or the time
cause: no step ever records the bomb cause. -/
lemma reachable_reason (s : GameState) (hs : Reachable s) :
    s.gameOverReason = none ∨ s.gameOverReason = some GameOverReason.time := by
  induction hs with
  | refl => exact Or.inl rfl
  | tail hr hstep ih =>
      obtain ⟨a, h⟩ := hstep
      cases h with
      | start ha => exact Or.inl rfl
      | whack i hi =>
          rw [whackItem_gameOverReason]
          exact ih
      | tick ha ht => exact ih
      | expire ha ht =>
          simp only [endGame]
          rcases ih with h0 | h1
          · rw [if_pos h0]
            exact Or.inr rfl
          · rw [if_neg (by rw [h1]; simp)]
            exact Or.inr h1
      | pop r1 r2 h1 h2 h3 h4 ha =>
          rw [popTick_gameOverReason]
          exact ih
      | hide t ht => exact ih

/-- Running state with a mole in cell 0, for concrete instantiations. -/
def moleDemo : GameState :=
  { score := 0
    timeLeft := 60
    isActive := true
    holeContents := HoleContent.mole :: List.replicate 8 HoleContent.empty
    gameOverReason := none
    moleTimeouts := [] }

/-- Running state with a bomb in cell 0 and a stale pending mole timeout for
cell 0, for concrete instantiations. -/
def staleDemo : GameState :=
  { score := 0
    timeLeft := 60
    isActive := true
    holeContents := HoleContent.bomb :: List.replicate 8 HoleContent.empty
    gameOverReason := none
    moleTimeouts := [⟨0, HoleContent.mole⟩] }

/-- Dense 9-element JavaScript array of empty holes. -/
def demoJS : JSGrid :=
  { len := 9
    val := fun j => if 0 ≤ j ∧ j < 9 then some HoleContent.empty else none }

/-- C2: while running, whacking a mole at a valid index adds exactly 10 and
clears the cell; whacking a bomb subtracts exactly 10 (the score is an
integer with no floor) and clears the cell; whacking an empty cell changes
nothing. -/
theorem whack_scoring (s : GameState) (i : Nat) (hi : i < GRID_SIZE)
    (hlen : s.holeContents.length = GRID_SIZE) (hact : s.isActive = true) :
    (s.holeContents[i]? = some HoleContent.mole →
      (whackItem i s).score = s.score + 10 ∧
      (whackItem i s).holeContents[i]? = some HoleContent.empty) ∧
    (s.holeContents[i]? = some HoleContent.bomb →
      (whackItem i s).score = s.score - 10 ∧
      (whackItem i s).holeContents[i]? = some HoleContent.empty) ∧
    (s.holeContents[i]? = some HoleContent.empty → whackItem i s = s) := by
  have hilen : i < s.holeContents.length := by
    rw [hlen]
    exact hi
  refine ⟨?_, ?_, ?_⟩
  · intro hm
    unfold whackItem
    rw [if_neg (by simp [hm, hact])]
    exact ⟨by simp [hm], by simp [List.getElem?_set_self hilen]⟩
  · intro hb
    unfold whackItem
    rw [if_neg (by simp [hb, hact])]
    exact ⟨by simp [hb], by simp [List.getElem?_set_self hilen]⟩
  · intro he
    unfold whackItem
    rw [if_pos (Or.inl he)]

/-- Witness for C2 at the running state with a mole in cell 0. -/
theorem whack_scoring_witness :
    (whackItem 0 moleDemo).score = 10 ∧
    (whackItem 0 moleDemo).holeContents[0]? = some HoleContent.empty := by
  obtain ⟨hm, -, -⟩ := whack_scoring moleDemo 0 (by decide) (by decide) rfl
  obtain ⟨h1, h2⟩ := hm (by decide)
  exact ⟨by simpa using h1, h2⟩

/-- C4: startGame resets score to 0, time to 60, sets the game active,
clears the recorded end cause, and empties all 9 cells, from any prior
state. -/
theorem startGame_resets (s : GameState) :
    (startGame s).score = 0 ∧ (startGame s).timeLeft = 60 ∧
    (startGame s).isActive = true ∧ (startGame s).gameOverReason = none ∧
    (startGame s).holeContents = List.replicate 9 HoleContent.empty :=
  ⟨rfl, rfl, rfl, rfl, rfl⟩

/-- C7: whacking while inactive, or whacking an empty cell, returns the
whole state unchanged — a silent no-op of a total function, not an error. -/
theorem whack_silent_noop (s : GameState) (i : Nat) (hi : i < GRID_SIZE) :
    (s.isActive = false → whackItem i s = s) ∧
    (s.holeContents[i]? = some HoleContent.empty → whackItem i s = s) := by
  constructor
  · intro hna
    unfold whackItem
    rw [if_pos (Or.inr hna)]
  · intro he
    unfold whackItem
    rw [if_pos (Or.inl he)]

/-- Witness for C7 at the inactive initial state. -/
theorem whack_silent_noop_witness : whackItem 0 initState = initState :=
  (whack_silent_noop initState 0 (by decide)).1 rfl

/-- C10: whackItem at a valid index modifies at most the score and that one
cell: time, activity, end cause, pending timeouts and every other cell are
unchanged. -/
theorem whack_frame (s : GameState) (i : Nat) (hi : i < GRID_SIZE) :
    (whackItem i s).timeLeft = s.timeLeft ∧
    (whackItem i s).isActive = s.isActive ∧
    (whackItem i s).gameOverReason = s.gameOverReason ∧
    (whackItem i s).moleTimeouts = s.moleTimeouts ∧
    ∀ j : Nat, j ≠ i → (whackItem i s).holeContents[j]? = s.holeContents[j]? :=
  ⟨whackItem_timeLeft i s, whackItem_isActive i s,
   whackItem_gameOverReason i s, whackItem_moleTimeouts i s,
   fun j hj => whackItem_cell_ne i j s hj⟩

/-- Witness for C10 at the state with a mole in cell 0. -/
theorem whack_frame_witness :
    (whackItem 0 moleDemo).timeLeft = moleDemo.timeLeft ∧
    (whackItem 0 moleDemo).isActive = moleDemo.isActive ∧
    (whackItem 0 moleDemo).gameOverReason = moleDemo.gameOverReason ∧
    (whackItem 0 moleDemo).moleTimeouts = moleDemo.moleTimeouts ∧
    ∀ j : Nat, j ≠ 0 →
      (whackItem 0 moleDemo).holeContents[j]? = moleDemo.holeContents[j]? :=
  whack_frame moleDemo 0 (by decide)

/-- C9: whacking an out-of-range index while running on a dense 9-cell
JavaScript array leaves the score unchanged but is not a no-op — the guard
compares the undefined read against the empty tag, so the write path runs
and stores the empty tag at that index, and a write at an index at or past 9
extends the array beyond its 9 cells. -/
theorem whackItemJS_out_of_range (g : JSGrid) (score : Int) (idx : Int)
    (hout : idx < 0 ∨ (9 : Int) ≤ idx) (hlen : g.len = 9)
    (hval : ∀ j : Int, j < 0 ∨ (9 : Int) ≤ j → g.val j = none) :
    (whackItemJS idx true g score).2 = score ∧
    (whackItemJS idx true g score).1.val idx = some HoleContent.empty ∧
    g.val idx = none ∧
    ((9 : Int) ≤ idx → 9 < (whackItemJS idx true g score).1.len) := by
  have hv : g.val idx = none := hval idx hout
  unfold whackItemJS
  rw [if_neg (by simp [hv])]
  refine ⟨by simp [hv], by simp [JSGrid.setProp], hv, ?_⟩
  intro h9
  simp only [JSGrid.setProp, hlen]
  rw [if_pos ⟨by omega, by omega⟩]
  omega

/-- Witness for C9: whacking index 12 on the dense all-empty array. -/
theorem whackItemJS_out_of_range_witness :
    (whackItemJS 12 true demoJS 0).2 = 0 ∧
    (whackItemJS 12 true demoJS 0).1.val 12 = some HoleContent.empty ∧
    demoJS.val 12 = none ∧
    ((9 : Int) ≤ 12 → 9 < (whackItemJS 12 true demoJS 0).1.len) :=
  whackItemJS_out_of_range demoJS 0 12 (Or.inr (by norm_num)) rfl
    (by
      intro j hj
      simp only [demoJS]
      rw [if_neg (by omega)])

/-- C1 (amended): an auto-hide whose captured content differs from what the
cell now holds leaves the cell untouched — the content-equality guard
refuses to clear it. -/
theorem hide_guard_distinct (s : GameState) (t : Timer) (B : HoleContent)
    (hne : t.content ≠ B) (hcell : s.holeContents[t.idx]? = some B) :
    (fireHide t s).holeContents[t.idx]? = some B := by
  have hg : ¬ s.holeContents[t.idx]? = some t.content := by
    rw [hcell]
    simp
    exact fun e => hne e.symm
  simp only [fireHide, hideCallback]
  rw [if_neg hg]
  exact hcell

/-- Witness for the amended C1: a stale mole timeout fires against a cell
now holding a bomb and leaves the bomb in place. -/
theorem hide_guard_distinct_witness :
    (fireHide ⟨0, HoleContent.mole⟩ staleDemo).holeContents[0]? =
      some HoleContent.bomb :=
  hide_guard_distinct staleDemo ⟨0, HoleContent.mole⟩ HoleContent.bomb
    (by decide) (by decide)

/-- Running state at time 0 with a recorded-cause-free session, a non-empty
grid and a pending timeout, for concrete instantiations. -/
def expiredDemo : GameState :=
  { score := 5
    timeLeft := 0
    isActive := true
    holeContents := HoleContent.mole :: List.replicate 8 HoleContent.empty
    gameOverReason := none
    moleTimeouts := [⟨3, HoleContent.bomb⟩] }

/-- C3: when the countdown reaches 0 while running, the expiry step applies;
it deactivates the session, cancels every pending auto-hide timeout, resets
the grid to all-empty, records the time cause exactly when no cause is
recorded yet, and from the resulting state no further spawn step and no
further expiry step can occur. -/
theorem clock_expiry (s : GameState) (hact : s.isActive = true)
    (ht : s.timeLeft = 0) :
    LStep s Act.expire (endGame s) ∧
    (endGame s).isActive = false ∧
    (endGame s).moleTimeouts = [] ∧
    (endGame s).holeContents = List.replicate 9 HoleContent.empty ∧
    (s.gameOverReason = none →
      (endGame s).gameOverReason = some GameOverReason.time) ∧
    (∀ c, s.gameOverReason = some c → (endGame s).gameOverReason = some c) ∧
    (∀ a u, LStep (endGame s) a u →
      (∀ r1 r2, a ≠ Act.pop r1 r2) ∧ a ≠ Act.expire) := by
  refine ⟨LStep.expire hact (le_of_eq ht), rfl, rfl, rfl, ?_, ?_, ?_⟩
  · intro h
    simp only [endGame]
    rw [if_pos h]
  · intro c hc
    simp only [endGame]
    rw [if_neg (by rw [hc]; simp)]
    exact hc
  · intro a u hstep
    cases hstep with
    | start ha => exact ⟨fun r1 r2 h => Act.noConfusion h, fun h => Act.noConfusion h⟩
    | whack i hi => exact ⟨fun r1 r2 h => Act.noConfusion h, fun h => Act.noConfusion h⟩
    | tick ha ht2 => exact ⟨fun r1 r2 h => Act.noConfusion h, fun h => Act.noConfusion h⟩
    | expire ha ht2 => exact absurd ha (by simp [endGame])
    | pop r1 r2 h1 h2 h3 h4 ha => exact absurd ha (by simp [endGame])
    | hide t ht2 => exact ⟨fun r1 r2 h => Act.noConfusion h, fun h => Act.noConfusion h⟩

/-- Witness for C3 at a running state with time 0. -/
theorem clock_expiry_witness :
    LStep expiredDemo Act.expire (endGame expiredDemo) ∧
    (endGame expiredDemo).isActive = false ∧
    (endGame expiredDemo).moleTimeouts = [] ∧
    (endGame expiredDemo).holeContents = List.replicate 9 HoleContent.empty ∧
    (expiredDemo.gameOverReason = none →
      (endGame expiredDemo).gameOverReason = some GameOverReason.time) ∧
    (∀ c, expiredDemo.gameOverReason = some c →
      (endGame expiredDemo).gameOverReason = some c) ∧
    (∀ a u, LStep (endGame expiredDemo) a u →
      (∀ r1 r2, a ≠ Act.pop r1 r2) ∧ a ≠ Act.expire) :=
  clock_expiry expiredDemo rfl rfl

/-- C8: in every reachable state the end cause is nothing or the time cause
(the bomb cause is never recorded), whack sequences never change isActive or
the end cause, and the only step that deactivates a running session is the
clock-expiry step. -/
theorem bomb_never_ends (s : GameState) (hs : Reachable s) :
    (s.gameOverReason = none ∨ s.gameOverReason = some GameOverReason.time) ∧
    (∀ l : List Nat, (whackSeq l s).isActive = s.isActive ∧
      (whackSeq l s).gameOverReason = s.gameOverReason) ∧
    (∀ a u, LStep s a u → s.isActive = true → u.isActive = false →
      a = Act.expire) := by
  refine ⟨reachable_reason s hs,
    fun l => ⟨whackSeq_isActive l s, whackSeq_gameOverReason l s⟩, ?_⟩
  intro a u h ha hnot
  cases h with
  | start ha2 => rw [ha] at ha2; exact Bool.noConfusion ha2
  | whack i hi =>
      rw [whackItem_isActive, ha] at hnot
      exact Bool.noConfusion hnot
  | tick ha2 ht =>
      have : s.isActive = false := hnot
      rw [ha] at this
      exact Bool.noConfusion this
  | expire ha2 ht => rfl
  | pop r1 r2 h1 h2 h3 h4 ha2 =>
      rw [popTick_isActive, ha] at hnot
      exact Bool.noConfusion hnot
  | hide t ht =>
      have : s.isActive = false := hnot
      rw [ha] at this
      exact Bool.noConfusion this

/-- Witness for C8 at the reachable initial state. -/
theorem bomb_never_ends_witness :
    (initState.gameOverReason = none ∨
      initState.gameOverReason = some GameOverReason.time) ∧
    (∀ l : List Nat, (whackSeq l initState).isActive = initState.isActive ∧
      (whackSeq l initState).gameOverReason = initState.gameOverReason) ∧
    (∀ a u, LStep initState a u → initState.isActive = true →
      u.isActive = false → a = Act.expire) :=
  bomb_never_ends initState Relation.ReflTransGen.refl

/-- C6: at every reachable state each cell holds one of the three contents,
and every single step changes a cell only along empty-to-mole,
empty-to-bomb, mole-to-empty or bomb-to-empty — never directly between mole
and bomb. -/
theorem grid_transitions (s : GameState) (hs : Reachable s) (a : Act)
    (u : GameState) (h : LStep s a u) (i : Nat) (hi : i < GRID_SIZE) :
    (s.holeContents.getD i HoleContent.empty = HoleContent.empty ∨
     s.holeContents.getD i HoleContent.empty = HoleContent.mole ∨
     s.holeContents.getD i HoleContent.empty = HoleContent.bomb) ∧
    cellStepOK (s.holeContents.getD i HoleContent.empty)
      (u.holeContents.getD i HoleContent.empty) := by
  constructor
  · cases s.holeContents.getD i HoleContent.empty <;> simp
  · cases h with
    | start ha =>
        have hg : (startGame s).holeContents =
            List.replicate GRID_SIZE HoleContent.empty := rfl
        rw [hg, getD_replicate_empty]
        exact cellStepOK_to_empty _
    | whack j hj =>
        by_cases hg : s.holeContents[j]? = some HoleContent.empty ∨
          s.isActive = false
        · have hid : whackItem j s = s := by
            unfold whackItem
            rw [if_pos hg]
          rw [hid]
          exact cellStepOK_refl _
        · rw [whackItem_holeContents_hit j s hg]
          exact cellStepOK_set_empty _ _ _
    | tick ha ht => exact cellStepOK_refl _
    | expire ha ht =>
        have hg : (endGame s).holeContents =
            List.replicate GRID_SIZE HoleContent.empty := rfl
        rw [hg, getD_replicate_empty]
        exact cellStepOK_to_empty _
    | pop r1 r2 h1 h2 h3 h4 ha =>
        by_cases hne : emptyHolesIndexes s.holeContents = []
        · rw [popTick_full s r1 r2 hne]
          exact cellStepOK_refl _
        · obtain ⟨hpos, hcell⟩ :=
            mem_emptyHolesIndexes (popTick_chosen_mem s r1 h1 h2 hne)
          rw [popTick_holeContents s r1 r2 hne]
          by_cases hik : i =
            ((emptyHolesIndexes s.holeContents).getD
              (Int.floor
                (r1 * ((emptyHolesIndexes s.holeContents).length : ℚ))).toNat
              (-1)).toNat
          · obtain ⟨hlt, -⟩ := List.getElem?_eq_some.mp hcell
            rw [hik, List.getD_eq_getElem?_getD, hcell,
              List.getD_eq_getElem?_getD, List.getElem?_set_self hlt,
              Option.getD_some]
            by_cases hb : r2 < BOMB_CHANCE
            · rw [if_pos hb]
              exact Or.inr (Or.inl ⟨rfl, Or.inr rfl⟩)
            · rw [if_neg hb]
              exact Or.inr (Or.inl ⟨rfl, Or.inl rfl⟩)
          · rw [List.getD_eq_getElem?_getD (s.holeContents.set _ _),
              List.getElem?_set_ne (fun e => hik e.symm),
              ← List.getD_eq_getElem?_getD]
            exact cellStepOK_refl _
    | hide t ht =>
        have hg : (fireHide t s).holeContents =
            hideCallback t.idx t.content s.holeContents := rfl
        rw [hg]
        unfold hideCallback
        split
        · exact cellStepOK_set_empty _ _ _
        · exact cellStepOK_refl _

/-- Witness for C6 at the start step from the initial state, cell 0. -/
theorem grid_transitions_witness :
    (initState.holeContents.getD 0 HoleContent.empty = HoleContent.empty ∨
     initState.holeContents.getD 0 HoleContent.empty = HoleContent.mole ∨
     initState.holeContents.getD 0 HoleContent.empty = HoleContent.bomb) ∧
    cellStepOK (initState.holeContents.getD 0 HoleContent.empty)
      ((startGame initState).holeContents.getD 0 HoleContent.empty) :=
  grid_transitions initState Relation.ReflTransGen.refl Act.start
    (startGame initState) (LStep.start rfl) 0 (by decide)

/-- C5: a spawn tick on a full grid returns the state unchanged; otherwise
the changed cell is the one at position floor(r1 times the number of empty
cells) of the empty-index list, that cell was empty and receives a bomb
exactly when r2 is below BOMB_CHANCE and a mole otherwise, and every other
cell is unchanged. -/
theorem popTick_spec (s : GameState) (r1 r2 : ℚ) (h1 : 0 ≤ r1) (h2 : r1 < 1)
    (h3 : 0 ≤ r2) (h4 : r2 < 1) :
    (emptyHolesIndexes s.holeContents = [] → popTick r1 r2 s = s) ∧
    (emptyHolesIndexes s.holeContents ≠ [] →
      ∃ chosen : Int,
        chosen = (emptyHolesIndexes s.holeContents).getD
          (Int.floor
            (r1 * ((emptyHolesIndexes s.holeContents).length : ℚ))).toNat
          (-1) ∧
        chosen ∈ emptyHolesIndexes s.holeContents ∧
        s.holeContents[chosen.toNat]? = some HoleContent.empty ∧
        (popTick r1 r2 s).holeContents[chosen.toNat]? =
          some (if r2 < BOMB_CHANCE then HoleContent.bomb
            else HoleContent.mole) ∧
        ∀ j : Nat, j ≠ chosen.toNat →
          (popTick r1 r2 s).holeContents[j]? = s.holeContents[j]?) := by
  refine ⟨popTick_full s r1 r2, ?_⟩
  intro hne
  have hmem := popTick_chosen_mem s r1 h1 h2 hne
  obtain ⟨hpos, hcell⟩ := mem_emptyHolesIndexes hmem
  obtain ⟨hlt, -⟩ := List.getElem?_eq_some.mp hcell
  refine ⟨_, rfl, hmem, hcell, ?_, ?_⟩
  · rw [popTick_holeContents s r1 r2 hne, List.getElem?_set_self hlt]
  · intro j hj
    rw [popTick_holeContents s r1 r2 hne,
      List.getElem?_set_ne (fun e => hj e.symm)]

/-- Witness for C5 at the all-empty initial grid with draws 0 and 0. -/
theorem popTick_spec_witness :
    ∃ chosen : Int,
      chosen = (emptyHolesIndexes initState.holeContents).getD
        (Int.floor
          ((0 : ℚ) *
            ((emptyHolesIndexes initState.holeContents).length : ℚ))).toNat
        (-1) ∧
      chosen ∈ emptyHolesIndexes initState.holeContents ∧
      initState.holeContents[chosen.toNat]? = some HoleContent.empty ∧
      (popTick 0 0 initState).holeContents[chosen.toNat]? =
        some (if (0 : ℚ) < BOMB_CHANCE then HoleContent.bomb
          else HoleContent.mole) ∧
      ∀ j : Nat, j ≠ chosen.toNat →
        (popTick 0 0 initState).holeContents[j]? =
          initState.holeContents[j]? :=
  (popTick_spec initState 0 0 le_rfl (by norm_num) le_rfl
    (by norm_num)).2 (by decide)

/-- C1 (counterexample): spawn a mole at cell 0, whack it clear, spawn a
second mole at cell 0; the first spawn's hide timeout is still pending, and
firing it clears cell 0 — the guard compares content kinds, so it cannot
tell the second same-kind spawn from its own, and the cell does not keep the
newer content. -/
theorem stale_hide_same_kind_clears :
    (popTick 0 (1/2) (whackItem 0
        (popTick 0 (1/2) (startGame initState)))).holeContents.getD 0
        HoleContent.empty = HoleContent.mole ∧
    Timer.mk 0 HoleContent.mole ∈
      (popTick 0 (1/2) (whackItem 0
        (popTick 0 (1/2) (startGame initState)))).moleTimeouts ∧
    (fireHide ⟨0, HoleContent.mole⟩
        (popTick 0 (1/2) (whackItem 0
          (popTick 0 (1/2) (startGame initState))))).holeContents.getD 0
        HoleContent.empty = HoleContent.empty := by
  have hs0 : (startGame initState).holeContents =
      List.replicate 9 HoleContent.empty := rfl
  have hE : emptyHolesIndexes (List.replicate 9 HoleContent.empty) =
      [0, 1, 2, 3, 4, 5, 6, 7, 8] := by decide
  have hne0 : emptyHolesIndexes (startGame initState).holeContents ≠ [] := by
    rw [hs0, hE]
    decide
  have hchoose : ∀ l : List HoleContent,
      emptyHolesIndexes l = [0, 1, 2, 3, 4, 5, 6, 7, 8] →
      ((emptyHolesIndexes l).getD
        (Int.floor ((0 : ℚ) * ((emptyHolesIndexes l).length : ℚ))).toNat
        (-1)).toNat = 0 := by
    intro l hl
    rw [hl]
    norm_num
  have hcont : (if (1/2 : ℚ) < BOMB_CHANCE then HoleContent.bomb
      else HoleContent.mole) = HoleContent.mole := by
    rw [if_neg]
    norm_num [BOMB_CHANCE]
  have h1 : (popTick 0 (1/2) (startGame initState)).holeContents =
      (List.replicate 9 HoleContent.empty).set 0 HoleContent.mole := by
    rw [popTick_holeContents _ 0 (1/2) hne0,
      hchoose _ (by rw [hs0]; exact hE), hcont, hs0]
  have hT1 : (popTick 0 (1/2) (startGame initState)).moleTimeouts =
      [⟨0, HoleContent.mole⟩] := by
    rw [popTick_moleTimeouts _ 0 (1/2) hne0,
      hchoose _ (by rw [hs0]; exact hE), hcont]
    rfl
  have hguard : ¬ ((popTick 0 (1/2)
        (startGame initState)).holeContents[0]? = some HoleContent.empty ∨
      (popTick 0 (1/2) (startGame initState)).isActive = false) := by
    rw [h1, popTick_isActive]
    decide
  have h2 : (whackItem 0
      (popTick 0 (1/2) (startGame initState))).holeContents =
      List.replicate 9 HoleContent.empty := by
    rw [whackItem_holeContents_hit 0 _ hguard, h1]
    decide
  have hT2 : (whackItem 0
      (popTick 0 (1/2) (startGame initState))).moleTimeouts =
      [⟨0, HoleContent.mole⟩] := by
    rw [whackItem_moleTimeouts, hT1]
  have hne2 : emptyHolesIndexes (whackItem 0
      (popTick 0 (1/2) (startGame initState))).holeContents ≠ [] := by
    rw [h2, hE]
    decide
  have h3 : (popTick 0 (1/2) (whackItem 0
      (popTick 0 (1/2) (startGame initState)))).holeContents =
      (List.replicate 9 HoleContent.empty).set 0 HoleContent.mole := by
    rw [popTick_holeContents _ 0 (1/2) hne2,
      hchoose _ (by rw [h2]; exact hE), hcont, h2]
  have hT3 : (popTick 0 (1/2) (whackItem 0
      (popTick 0 (1/2) (startGame initState)))).moleTimeouts =
      [⟨0, HoleContent.mole⟩, ⟨0, HoleContent.mole⟩] := by
    rw [popTick_moleTimeouts _ 0 (1/2) hne2,
      hchoose _ (by rw [h2]; exact hE), hcont, hT2]
    rfl
  refine ⟨?_, ?_, ?_⟩
  · rw [h3]
    decide
  · rw [hT3]
    decide
  · have hf : (fireHide ⟨0, HoleContent.mole⟩
        (popTick 0 (1/2) (whackItem 0
          (popTick 0 (1/2) (startGame initState))))).holeContents =
        hideCallback 0 HoleContent.mole
          (popTick 0 (1/2) (whackItem 0
            (popTick 0 (1/2) (startGame initState)))).holeContents := rfl
    rw [hf, h3]
    decide

end WhackAMole
